import Mathlib

/-!
Verification of the dense matrix/vector value type demonstrated in
`src/src/Basics.cpp` (an Eigen tutorial).  The demo file only calls the
third-party dense linear-algebra library, so the matrix operations
themselves are modelled from the specification's contracts (§4.1 of the
spec); the interactive menu loop of `main` is embedded directly from the
source.  Storage is a flat row-major list, as the spec fixes one
consistent element ordering.
-/

/-- Modelled from the spec: error taxonomy of §7 (the library code
implementing these checks is not part of the repository sources). -/
inductive MatErr where
  | InvalidDimension
  | OutOfBounds
  | SizeMismatch
  | DimensionMismatch
  | EmptyMatrix
deriving DecidableEq, Repr

instance {ε σ : Type} [DecidableEq ε] [DecidableEq σ] : DecidableEq (Except ε σ) :=
  fun x y =>
    match x, y with
    | Except.ok a, Except.ok b =>
        if h : a = b then Decidable.isTrue (by rw [h]) else Decidable.isFalse (by simp [h])
    | Except.error a, Except.error b =>
        if h : a = b then Decidable.isTrue (by rw [h]) else Decidable.isFalse (by simp [h])
    | Except.ok _, Except.error _ => Decidable.isFalse (by simp)
    | Except.error _, Except.ok _ => Decidable.isFalse (by simp)

/-- Modelled from the spec: a dense matrix value — row count, column
count and a flat backing storage in row-major order. -/
structure Mat (α : Type) where
  rows : Nat
  cols : Nat
  data : List α
deriving DecidableEq, Repr

namespace Mat

variable {α : Type}

/-- The data-model invariant of §3: storage length equals `rows × cols`. -/
def wf (m : Mat α) : Prop := m.data.length = m.rows * m.cols

instance (m : Mat α) : Decidable m.wf := by unfold wf; infer_instance

/-- Element access at zero-based row `r`, column `c` (row-major flat index). -/
def get [Zero α] (m : Mat α) (r c : Nat) : α :=
  m.data.getD (r * m.cols + c) 0

/-- Build a matrix of the given size from an entry function (row-major). -/
def ofFn (rows cols : Nat) (f : Nat → Nat → α) : Mat α :=
  ⟨rows, cols, (List.range (rows * cols)).map fun k => f (k / cols) (k % cols)⟩

/-- Modelled from the spec: `transpose()` returns a new matrix with the
row/column roles swapped. -/
def transpose [Zero α] (m : Mat α) : Mat α :=
  ofFn m.cols m.rows fun r c => m.get c r

/-- Modelled from the spec: `transposeInPlace()` mutates the matrix to
its transpose (a full buffer rewrite); in the state-passing model it
returns the rewritten value. -/
def transposeInPlace [Zero α] (m : Mat α) : Mat α := transpose m

/-- Modelled from the spec: `conservativeResize(newRows, newCols)`
reallocates storage; every element whose position lies within both the
old and new bounds keeps its prior value; newly exposed positions are
undefined (the model picks `0` for them — nothing is proved about that
region). -/
def conservativeResize [Zero α] (m : Mat α) (nr nc : Nat) : Mat α :=
  ofFn nr nc fun r c => if r < m.rows ∧ c < m.cols then m.get r c else 0

/-- Modelled from the spec: element-wise addition `a + b`; fails with
`DimensionMismatch` unless the operands have identical rows and cols. -/
def add [Add α] (a b : Mat α) : Except MatErr (Mat α) :=
  if a.rows = b.rows ∧ a.cols = b.cols then
    Except.ok ⟨a.rows, a.cols, List.zipWith (· + ·) a.data b.data⟩
  else Except.error MatErr.DimensionMismatch

/-- Modelled from the spec: element-wise subtraction `a - b`; fails with
`DimensionMismatch` unless the operands have identical rows and cols. -/
def sub [Sub α] (a b : Mat α) : Except MatErr (Mat α) :=
  if a.rows = b.rows ∧ a.cols = b.cols then
    Except.ok ⟨a.rows, a.cols, List.zipWith (· - ·) a.data b.data⟩
  else Except.error MatErr.DimensionMismatch

/-- Entry `(r, c)` of the mathematical product of `a` and `b`:
`sum_k a[r][k] * b[k][c]`. -/
def mulEntry [AddCommMonoid α] [Mul α] (a b : Mat α) (r c : Nat) : α :=
  ((List.range a.cols).map fun k => a.get r k * b.get k c).sum

/-- Modelled from the spec: matrix product `a * b`; fails with
`DimensionMismatch` unless `a.cols == b.rows`; the result has dimensions
`a.rows × b.cols`. -/
def mul [AddCommMonoid α] [Mul α] (a b : Mat α) : Except MatErr (Mat α) :=
  if a.cols = b.rows then Except.ok (ofFn a.rows b.cols (mulEntry a b))
  else Except.error MatErr.DimensionMismatch

/-- Modelled from the spec: `sum()` — sum of all elements. -/
def sum [AddCommMonoid α] (m : Mat α) : α := m.data.sum

/-- Modelled from the spec: `mean()` — sum divided by the element count;
fails with `EmptyMatrix` when the element count is 0. -/
def mean [DivisionRing α] (m : Mat α) : Except MatErr α :=
  if m.rows * m.cols = 0 then Except.error MatErr.EmptyMatrix
  else Except.ok (m.sum / ((m.rows * m.cols : Nat) : α))

/-- The main diagonal read off the flat row-major storage (flat index
`i * cols + i`), as in the source comment `a.diagonal().sum()`. -/
def diagonal [Zero α] (m : Mat α) : List α :=
  (List.range m.rows).map fun i => m.data.getD (i * m.cols + i) 0

/-- Modelled from the spec: `trace()` — sum of the diagonal
coefficients; fails with `InvalidDimension` if the matrix is not
square. -/
def trace [AddCommMonoid α] (m : Mat α) : Except MatErr α :=
  if m.rows = m.cols then Except.ok m.diagonal.sum
  else Except.error MatErr.InvalidDimension

/-- Write every entry of `m`, element by element in row-major storage
order: position `k` receives `f cur (k / cols) (k % cols)` where `cur`
is the buffer as already partially overwritten.  This is the common core
of the two evaluation strategies for an assignment `mat = expr`. -/
def writeEntries (m : Mat α) (f : Mat α → Nat → Nat → α) : Mat α :=
  ⟨m.rows, m.cols,
    (List.range (m.rows * m.cols)).foldl
      (fun d k => d.set k (f ⟨m.rows, m.cols, d⟩ (k / m.cols) (k % m.cols))) m.data⟩

/-- Element-by-element in-place evaluation of `mat = mat * mat`: each
product entry is computed from the partially overwritten buffer.  The
spec's aliasing rule forbids this strategy. -/
def prodAssignInPlace [AddCommMonoid α] [Mul α] (m : Mat α) : Mat α :=
  writeEntries m fun cur r c => mulEntry cur cur r c

/-- Modelled from the spec: the aliasing rule routes `mat = mat * mat`
through a temporary — every product entry is computed from a snapshot of
the operand taken before any write. -/
def prodAssignTemp [AddCommMonoid α] [Mul α] (m : Mat α) : Mat α :=
  writeEntries m fun _ r c => mulEntry m m r c

end Mat

/-- Modelled from the spec: dot product of two vectors, parameterised by
the scalar conjugation (identity for real scalars, complex conjugation
for complex scalars); defined for two vectors of equal length, fails
with `SizeMismatch` otherwise; semantically `adjoint(v) * w` collapsed
to a scalar, i.e. `sum_k conj(v_k) * w_k`. -/
def dotc {α : Type} [AddCommMonoid α] [Mul α] (conj : α → α) (v w : List α) :
    Except MatErr α :=
  if v.length = w.length then
    Except.ok (List.zipWith (fun a b => conj a * b) v w).sum
  else Except.error MatErr.SizeMismatch

/-- A column vector as an `n × 1` matrix. -/
def colVec {α : Type} (w : List α) : Mat α := ⟨w.length, 1, w⟩

/-- Modelled from the spec: the adjoint (conjugate transpose) of a
column vector, a `1 × n` matrix of conjugated entries. -/
def vecAdjointc {α : Type} (conj : α → α) (v : List α) : Mat α :=
  ⟨1, v.length, v.map conj⟩

/-- Modelled from the spec: cross product, defined only for two vectors
of length exactly 3; fails with `InvalidDimension` for any other
length. -/
def cross {α : Type} [Ring α] (v w : List α) : Except MatErr (List α) :=
  if v.length = 3 ∧ w.length = 3 then
    Except.ok
      [v.getD 1 0 * w.getD 2 0 - v.getD 2 0 * w.getD 1 0,
       v.getD 2 0 * w.getD 0 0 - v.getD 0 0 * w.getD 2 0,
       v.getD 0 0 * w.getD 1 0 - v.getD 1 0 * w.getD 0 0]
  else Except.error MatErr.InvalidDimension

/-- Outcome of one iteration of the menu loop in `main`. -/
inductive StepResult where
  | runDemo (n : Nat)
  | noop
  | terminate
deriving DecidableEq, Repr

/-- One iteration of the `for(;;)` menu loop of `main` in
`src/src/Basics.cpp`: the switch dispatches selectors 1..12 to the demo
routines, selectors 13..20 to empty cases (`break`, so the loop prompts
again), and every other selector to `return 0`. -/
def mainStep : Nat → StepResult
  | 1 => StepResult.runDemo 1
  | 2 => StepResult.runDemo 2
  | 3 => StepResult.runDemo 3
  | 4 => StepResult.runDemo 4
  | 5 => StepResult.runDemo 5
  | 6 => StepResult.runDemo 6
  | 7 => StepResult.runDemo 7
  | 8 => StepResult.runDemo 8
  | 9 => StepResult.runDemo 9
  | 10 => StepResult.runDemo 10
  | 11 => StepResult.runDemo 11
  | 12 => StepResult.runDemo 12
  | 13 => StepResult.noop
  | 14 => StepResult.noop
  | 15 => StepResult.noop
  | 16 => StepResult.noop
  | 17 => StepResult.noop
  | 18 => StepResult.noop
  | 19 => StepResult.noop
  | 20 => StepResult.noop
  | _ => StepResult.terminate

/- ### Basic lemmas about the flat row-major representation -/

theorem rowmajor_idx_lt {r c rows cols : Nat} (hr : r < rows) (hc : c < cols) :
    r * cols + c < rows * cols := by
  calc r * cols + c < r * cols + cols := by omega
    _ = (r + 1) * cols := by ring
    _ ≤ rows * cols := Nat.mul_le_mul_right _ hr

theorem Mat.get_ofFn [Zero α] (rows cols : Nat) (f : Nat → Nat → α)
    {r c : Nat} (hr : r < rows) (hc : c < cols) :
    (Mat.ofFn rows cols f).get r c = f r c := by
  have hcpos : 0 < cols := by omega
  have hlt : r * cols + c < rows * cols := rowmajor_idx_lt hr hc
  unfold Mat.ofFn Mat.get
  simp only [List.getD_eq_getElem?_getD, List.getElem?_map, List.getElem?_range, hlt,
    if_pos, Option.map_some', Option.getD_some]
  congr 1
  · rw [Nat.mul_comm r cols, Nat.mul_add_div hcpos, Nat.div_eq_of_lt hc]
    omega
  · rw [Nat.mul_comm r cols, Nat.mul_add_mod, Nat.mod_eq_of_lt hc]

theorem Mat.ofFn_wf (rows cols : Nat) (f : Nat → Nat → α) :
    (Mat.ofFn rows cols f).wf := by
  unfold Mat.ofFn Mat.wf
  simp

theorem Mat.ext_of_get [Zero α] {m₁ m₂ : Mat α} (h₁ : m₁.wf) (h₂ : m₂.wf)
    (hr : m₁.rows = m₂.rows) (hc : m₁.cols = m₂.cols)
    (hget : ∀ r c, r < m₁.rows → c < m₁.cols → m₁.get r c = m₂.get r c) :
    m₁ = m₂ := by
  obtain ⟨rows, cols, d₁⟩ := m₁
  obtain ⟨rows₂, cols₂, d₂⟩ := m₂
  simp only at hr hc
  subst hr hc
  unfold Mat.wf at h₁ h₂
  simp only at h₁ h₂
  congr 1
  apply List.ext_getElem (by rw [h₁, h₂])
  intro k hk₁ hk₂
  by_cases hcpos : 0 < cols
  · have hkr : k / cols < rows := by
      rw [h₁] at hk₁
      exact Nat.div_lt_of_lt_mul (by rw [Nat.mul_comm]; exact hk₁)
    have hkc : k % cols < cols := Nat.mod_lt _ hcpos
    have := hget (k / cols) (k % cols) hkr hkc
    unfold Mat.get at this
    simp only at this
    rw [Nat.div_add_mod'] at this
    simpa [List.getD_eq_getElem?_getD, List.getElem?_eq_getElem, hk₁, hk₂] using this
  · exfalso
    have : cols = 0 := by omega
    subst this
    rw [h₁] at hk₁
    omega

/-- C8 helper: entry description of the transpose. -/
theorem Mat.get_transpose [Zero α] (m : Mat α) {r c : Nat}
    (hr : r < m.cols) (hc : c < m.rows) :
    m.transpose.get r c = m.get c r :=
  Mat.get_ofFn _ _ _ hr hc

/-- C8: For every well-formed matrix A, transpose(transpose(A)) == A, and
applying transposeInPlace twice restores the original matrix. -/
theorem transpose_transpose {α : Type} [Zero α] (m : Mat α) (h : m.wf) :
    m.transpose.transpose = m ∧ m.transposeInPlace.transposeInPlace = m := by
  have key : m.transpose.transpose = m := by
    apply Mat.ext_of_get (Mat.ofFn_wf _ _ _) h
    · rfl
    · rfl
    · intro r c hr hc
      have hr' : r < m.rows := hr
      have hc' : c < m.cols := hc
      exact (Mat.get_ofFn _ _ _ hr hc).trans (Mat.get_transpose m hc' hr')
  exact ⟨key, key⟩

/-- C8 witness: the property at the concrete 2×3 matrix [[1,2,3],[4,5,6]]. -/
theorem transpose_transpose_witness :
    (Mat.mk 2 3 [1, 2, 3, 4, 5, 6] : Mat Int).transpose.transpose
        = Mat.mk 2 3 [1, 2, 3, 4, 5, 6]
      ∧ (Mat.mk 2 3 [1, 2, 3, 4, 5, 6] : Mat Int).transposeInPlace.transposeInPlace
        = Mat.mk 2 3 [1, 2, 3, 4, 5, 6] :=
  transpose_transpose (Mat.mk 2 3 [1, 2, 3, 4, 5, 6]) (by decide)

/- ### Claim theorems -/

/-- C10: In the menu loop of `main`, every selector outside 1..20 makes
the program return 0; selectors 13..20 perform no operation (the loop
prompts again); selectors 1..12 run the corresponding demo; hence the
program never terminates on a selector in 1..20. -/
theorem main_menu_spec (val : Nat) :
    (mainStep val = StepResult.terminate ↔ (val < 1 ∨ 20 < val))
    ∧ (13 ≤ val → val ≤ 20 → mainStep val = StepResult.noop)
    ∧ (1 ≤ val → val ≤ 12 → mainStep val = StepResult.runDemo val) := by
  by_cases hval : val < 21
  · interval_cases val <;> exact ⟨by decide, by decide, by decide⟩
  · obtain ⟨n, rfl⟩ : ∃ n, val = n + 21 := ⟨val - 21, by omega⟩
    exact ⟨⟨fun _ => by omega, fun _ => rfl⟩,
      fun _ h2 => absurd h2 (by omega),
      fun _ h2 => absurd h2 (by omega)⟩

/-- C10 witness: selector 15 is a no-op (the loop continues). -/
theorem main_menu_spec_witness : mainStep 15 = StepResult.noop :=
  (main_menu_spec 15).2.1 (by decide) (by decide)

/-- C1: for a square matrix the trace is the sum of the elements whose
row index equals their column index; for a non-square matrix `trace`
fails with `InvalidDimension`. -/
theorem trace_spec {α : Type} [AddCommMonoid α] (m : Mat α) :
    m.trace = (if m.rows = m.cols
      then Except.ok (((List.range m.rows).map fun i => m.get i i).sum)
      else Except.error MatErr.InvalidDimension) := by
  unfold Mat.trace Mat.diagonal Mat.get
  split <;> rfl

/-- C6: `mean()` is `sum()` divided by the element count, and fails with
`EmptyMatrix` exactly when the element count is 0 (the error is the
synchronous result of the call itself). -/
theorem mean_spec {α : Type} [DivisionRing α] (m : Mat α) :
    m.mean = (if m.rows * m.cols = 0 then Except.error MatErr.EmptyMatrix
      else Except.ok (m.sum / ((m.rows * m.cols : Nat) : α)))
    ∧ (m.mean = Except.error MatErr.EmptyMatrix ↔ m.rows * m.cols = 0) := by
  refine ⟨rfl, ?_⟩
  unfold Mat.mean
  split <;> simp_all

/-- C3: `conservativeResize` keeps every element whose position lies
within both the old and the new bounds; in particular the 2×3 matrix
[[1,2,3],[4,5,6]] conservatively resized to 3×2 has top-left block
[[1,2],[4,5]]. -/
theorem conservativeResize_spec {α : Type} [Zero α] (m : Mat α) (nr nc r c : Nat)
    (hrOld : r < m.rows) (hrNew : r < nr) (hcOld : c < m.cols) (hcNew : c < nc) :
    (m.conservativeResize nr nc).get r c = m.get r c
    ∧ ((Mat.mk 2 3 [1, 2, 3, 4, 5, 6] : Mat Int).conservativeResize 3 2).get 0 0 = 1
    ∧ ((Mat.mk 2 3 [1, 2, 3, 4, 5, 6] : Mat Int).conservativeResize 3 2).get 0 1 = 2
    ∧ ((Mat.mk 2 3 [1, 2, 3, 4, 5, 6] : Mat Int).conservativeResize 3 2).get 1 0 = 4
    ∧ ((Mat.mk 2 3 [1, 2, 3, 4, 5, 6] : Mat Int).conservativeResize 3 2).get 1 1 = 5 := by
  refine ⟨?_, by decide, by decide, by decide, by decide⟩
  unfold Mat.conservativeResize
  rw [Mat.get_ofFn _ _ _ hrNew hcNew]
  simp [hrOld, hcOld]

/-- C3 witness: the preservation property at position (1, 1) of the
source example. -/
theorem conservativeResize_spec_witness :
    ((Mat.mk 2 3 [1, 2, 3, 4, 5, 6] : Mat Int).conservativeResize 3 2).get 1 1
        = (Mat.mk 2 3 [1, 2, 3, 4, 5, 6] : Mat Int).get 1 1
    ∧ ((Mat.mk 2 3 [1, 2, 3, 4, 5, 6] : Mat Int).conservativeResize 3 2).get 0 0 = 1
    ∧ ((Mat.mk 2 3 [1, 2, 3, 4, 5, 6] : Mat Int).conservativeResize 3 2).get 0 1 = 2
    ∧ ((Mat.mk 2 3 [1, 2, 3, 4, 5, 6] : Mat Int).conservativeResize 3 2).get 1 0 = 4
    ∧ ((Mat.mk 2 3 [1, 2, 3, 4, 5, 6] : Mat Int).conservativeResize 3 2).get 1 1 = 5 :=
  conservativeResize_spec (Mat.mk 2 3 [1, 2, 3, 4, 5, 6]) 3 2 1 1
    (by decide) (by decide) (by decide) (by decide)

/-- C4: the matrix product fails with `DimensionMismatch` unless
`a.cols == b.rows`, and on success has dimensions `a.rows × b.cols`;
a 2×3 times a 4×2 product fails while a 2×3 times a 3×2 product yields
a 2×2 result. -/
theorem matmul_spec {α : Type} [AddCommMonoid α] [Mul α] (a b : Mat α) :
    (a.cols ≠ b.rows → Mat.mul a b = Except.error MatErr.DimensionMismatch)
    ∧ (a.cols = b.rows →
        ∃ p, Mat.mul a b = Except.ok p ∧ p.rows = a.rows ∧ p.cols = b.cols)
    ∧ Mat.mul (Mat.mk 2 3 [1, 2, 3, 4, 5, 6] : Mat Int)
        (Mat.mk 4 2 [1, 1, 1, 1, 1, 1, 1, 1]) = Except.error MatErr.DimensionMismatch
    ∧ (∃ p : Mat Int,
        Mat.mul (Mat.mk 2 3 [1, 2, 3, 4, 5, 6]) (Mat.mk 3 2 [7, 8, 9, 10, 11, 12])
          = Except.ok p ∧ p.rows = 2 ∧ p.cols = 2) := by
  refine ⟨?_, ?_, by decide, ⟨Mat.mk 2 2 [58, 64, 139, 154], by decide, rfl, rfl⟩⟩
  · intro h
    unfold Mat.mul
    rw [if_neg h]
  · intro h
    exact ⟨Mat.ofFn a.rows b.cols (Mat.mulEntry a b),
      by unfold Mat.mul; rw [if_pos h], rfl, rfl⟩

/-- C4 witness: the success case at the source's 2×3 and 3×2 shapes. -/
theorem matmul_spec_witness :
    ∃ p : Mat Int,
      Mat.mul (Mat.mk 2 3 [1, 2, 3, 4, 5, 6]) (Mat.mk 3 2 [7, 8, 9, 10, 11, 12])
        = Except.ok p ∧ p.rows = (2 : Nat) ∧ p.cols = (2 : Nat) :=
  (matmul_spec (Mat.mk 2 3 [1, 2, 3, 4, 5, 6]) (Mat.mk 3 2 [7, 8, 9, 10, 11, 12])).2.1
    (by decide)

theorem zipWith_sub_zipWith_add {α : Type} [AddGroup α] :
    ∀ (x y : List α), x.length = y.length →
      List.zipWith (· - ·) (List.zipWith (· + ·) x y) y = x
  | [], [], _ => rfl
  | a :: x, b :: y, h => by
    have ih := zipWith_sub_zipWith_add x y (by simpa using h)
    simp [List.zipWith_cons_cons, add_sub_cancel_right, ih]
  | [], _ :: _, h => by simp at h
  | _ :: _, [], h => by simp at h

/-- C9: for well-formed matrices of identical shape, (A + B) - B == A
element-wise; and addition and subtraction fail with `DimensionMismatch`
whenever the two operands do not have identical rows and cols. -/
theorem add_sub_cancel_spec {α : Type} [AddGroup α] (a b : Mat α)
    (hwa : a.wf) (hwb : b.wf) (hr : a.rows = b.rows) (hc : a.cols = b.cols) :
    (Mat.add a b).bind (fun s => Mat.sub s b) = Except.ok a
    ∧ (∀ a' b' : Mat α, a'.rows ≠ b'.rows ∨ a'.cols ≠ b'.cols →
        Mat.add a' b' = Except.error MatErr.DimensionMismatch
        ∧ Mat.sub a' b' = Except.error MatErr.DimensionMismatch) := by
  constructor
  · have hlen : a.data.length = b.data.length := by
      unfold Mat.wf at hwa hwb
      rw [hwa, hwb, hr, hc]
    have hadd : Mat.add a b
        = Except.ok ⟨a.rows, a.cols, List.zipWith (· + ·) a.data b.data⟩ := by
      unfold Mat.add
      rw [if_pos ⟨hr, hc⟩]
    rw [hadd]
    show Mat.sub ⟨a.rows, a.cols, List.zipWith (· + ·) a.data b.data⟩ b = Except.ok a
    unfold Mat.sub
    rw [if_pos ⟨hr, hc⟩]
    rw [zipWith_sub_zipWith_add a.data b.data hlen]
  · intro a' b' hne
    have hcond : ¬(a'.rows = b'.rows ∧ a'.cols = b'.cols) := by tauto
    constructor
    · unfold Mat.add
      rw [if_neg hcond]
    · unfold Mat.sub
      rw [if_neg hcond]

/-- C9 witness: the property at the source matrices [[1,2],[3,4]] and
[[4,3],[2,1]] of `addition_subtraction`. -/
theorem add_sub_cancel_spec_witness :
    (Mat.add (Mat.mk 2 2 [1, 2, 3, 4] : Mat Int) (Mat.mk 2 2 [4, 3, 2, 1])).bind
        (fun s => Mat.sub s (Mat.mk 2 2 [4, 3, 2, 1]))
      = Except.ok (Mat.mk 2 2 [1, 2, 3, 4])
    ∧ (∀ a' b' : Mat Int, a'.rows ≠ b'.rows ∨ a'.cols ≠ b'.cols →
        Mat.add a' b' = Except.error MatErr.DimensionMismatch
        ∧ Mat.sub a' b' = Except.error MatErr.DimensionMismatch) :=
  add_sub_cancel_spec (Mat.mk 2 2 [1, 2, 3, 4]) (Mat.mk 2 2 [4, 3, 2, 1])
    (by decide) (by decide) rfl rfl

/-- C7: the cross product succeeds exactly on two vectors of length 3
(failing with `InvalidDimension` otherwise), is antisymmetric, and is
orthogonal to its first operand under the dot product (exactly, in the
exact-arithmetic model). -/
theorem cross_spec {α : Type} [CommRing α] (v w : List α)
    (hv : v.length = 3) (hw : w.length = 3) :
    (∃ c, cross v w = Except.ok c
       ∧ cross w v = Except.ok (c.map fun x => -x)
       ∧ dotc (fun a => a) v c = Except.ok 0)
    ∧ (∀ v' w' : List α, ¬(v'.length = 3 ∧ w'.length = 3) →
        cross v' w' = Except.error MatErr.InvalidDimension) := by
  constructor
  · rcases v with _ | ⟨a, _ | ⟨b, _ | ⟨c0, _ | ⟨a4, t⟩⟩⟩⟩ <;> simp at hv
    rcases w with _ | ⟨d, _ | ⟨e, _ | ⟨f, _ | ⟨d4, t⟩⟩⟩⟩ <;> simp at hw
    refine ⟨_, rfl, ?_, ?_⟩
    · unfold cross
      rw [if_pos (by simp)]
      simp only [List.getD_cons_zero, List.getD_cons_succ, List.map_cons, List.map_nil,
        Except.ok.injEq, List.cons.injEq, and_true]
      refine ⟨by ring, by ring, by ring⟩
    · unfold dotc
      rw [if_pos (by simp)]
      simp only [List.getD_cons_zero, List.getD_cons_succ, List.zipWith_cons_cons,
        List.zipWith_nil_right, List.sum_cons, List.sum_nil, Except.ok.injEq]
      ring
  · intro v' w' hne
    unfold cross
    rw [if_neg hne]

/-- C7 witness: the property at the source vectors v = (1,2,3) and
w = (0,1,2) of `dot_and_cross_product`. -/
theorem cross_spec_witness :
    (∃ c, cross ([1, 2, 3] : List Int) [0, 1, 2] = Except.ok c
       ∧ cross ([0, 1, 2] : List Int) [1, 2, 3] = Except.ok (c.map fun x => -x)
       ∧ dotc (fun a => a) [1, 2, 3] c = Except.ok 0)
    ∧ (∀ v' w' : List Int, ¬(v'.length = 3 ∧ w'.length = 3) →
        cross v' w' = Except.error MatErr.InvalidDimension) :=
  cross_spec [1, 2, 3] [0, 1, 2] (by decide) (by decide)

/-- C2 counterexample: over the complex-like Gaussian integers, with the
conjugation of the adjoint-based definition, the dot product is not
symmetric: for v = [i] and w = [1], dot(v, w) = -i while dot(w, v) = i. -/
theorem dot_not_symmetric_complex :
    dotc (fun z => star z) [(⟨0, 1⟩ : GaussianInt)] [(⟨1, 0⟩ : GaussianInt)]
      ≠ dotc (fun z => star z) [(⟨1, 0⟩ : GaussianInt)] [(⟨0, 1⟩ : GaussianInt)] := by
  decide

theorem dot_sum_eq_range {α : Type} [CommRing α] (conj : α → α) :
    ∀ (v w : List α), v.length = w.length →
      (List.zipWith (fun a b => conj a * b) v w).sum
        = ((List.range v.length).map fun k => (v.map conj).getD k 0 * w.getD k 0).sum
  | [], [], _ => by simp
  | a :: v, b :: w, h => by
    have ih := dot_sum_eq_range conj v w (by simpa using h)
    simp only [List.zipWith_cons_cons, List.sum_cons, List.length_cons,
      List.range_succ_eq_map, List.map_cons, List.map_map,
      List.getD_cons_zero, List.getD_cons_succ]
    rw [ih]
    congr 1
  | [], _ :: _, h => by simp at h
  | _ :: _, [], h => by simp at h

/-- C2 (amended): for vectors of equal length the dot product is
symmetric for real scalars (identity conjugation), and for any scalar
conjugation it equals `adjoint(v) * w` collapsed to the single entry of
the resulting 1×1 matrix; over complex scalars it is conjugate-symmetric
rather than symmetric. -/
theorem dot_comm_real_and_adjoint {α : Type} [CommRing α] (conj : α → α)
    (v w : List α) (h : v.length = w.length) :
    dotc (fun a => a) v w = dotc (fun a => a) w v
    ∧ dotc conj v w
        = Except.map (fun M => M.get 0 0) (Mat.mul (vecAdjointc conj v) (colVec w)) := by
  constructor
  · unfold dotc
    rw [if_pos h, if_pos h.symm]
    exact congrArg Except.ok
      (congrArg List.sum (List.zipWith_comm_of_comm _ (fun x y => mul_comm x y) v w))
  · have hres : Mat.mul (vecAdjointc conj v) (colVec w)
        = Except.ok (Mat.ofFn 1 1 (Mat.mulEntry (vecAdjointc conj v) (colVec w))) := by
      unfold Mat.mul
      split
      · rfl
      · next hfalse => exact absurd h hfalse
    rw [hres]
    show dotc conj v w
      = Except.ok ((Mat.ofFn 1 1 (Mat.mulEntry (vecAdjointc conj v) (colVec w))).get 0 0)
    rw [Mat.get_ofFn 1 1 _ (by omega) (by omega)]
    unfold dotc
    rw [if_pos h]
    congr 1
    unfold Mat.mulEntry Mat.get vecAdjointc colVec
    simp only [Nat.zero_mul, Nat.zero_add, Nat.mul_one, Nat.add_zero]
    exact dot_sum_eq_range conj v w h

/-- C2 witness: the amended property at the source's real vectors
v = (1,2,3), w = (0,1,2) with the identity conjugation. -/
theorem dot_comm_real_and_adjoint_witness :
    dotc (fun a => a) ([1, 2, 3] : List Int) [0, 1, 2]
        = dotc (fun a => a) [0, 1, 2] [1, 2, 3]
    ∧ dotc (fun a => a) ([1, 2, 3] : List Int) [0, 1, 2]
        = Except.map (fun M => M.get 0 0)
            (Mat.mul (vecAdjointc (fun a => a) [1, 2, 3]) (colVec [0, 1, 2])) :=
  dot_comm_real_and_adjoint (fun a => a) [1, 2, 3] [0, 1, 2] (by decide)

theorem foldl_set_range {γ : Type} (g : Nat → γ) :
    ∀ (j : Nat) (l : List γ), j ≤ l.length →
      (List.range j).foldl (fun d k => d.set k (g k)) l
        = (List.range j).map g ++ l.drop j := by
  intro j
  induction j with
  | zero => intro l _; simp
  | succ n ih =>
    intro l hl
    have hn : n < l.length := by omega
    rw [List.range_succ, List.foldl_append, List.foldl_cons, List.foldl_nil,
      ih l (by omega), List.set_append_right _ _ (by simp),
      List.map_append]
    simp only [List.length_map, List.length_range, Nat.sub_self,
      List.drop_eq_getElem_cons hn, List.set_cons_zero, List.map_cons, List.map_nil]
    rw [List.append_cons]

/-- C5: an assignment whose right-hand side reads the destination
(`mat = mat * mat`) evaluated by the spec's aliasing rule — through a
temporary snapshot — agrees with the matrix product computed into fresh
storage; and the forbidden element-by-element in-place evaluation
disagrees with it already at the source matrix [[1,2],[3,4]]. -/
theorem aliased_product_assignment {α : Type} [AddCommMonoid α] [Mul α]
    (m : Mat α) (hsq : m.rows = m.cols) (hwf : m.wf) :
    Mat.mul m m = Except.ok m.prodAssignTemp
    ∧ (Mat.mk 2 2 [1, 2, 3, 4] : Mat Int).prodAssignInPlace
        ≠ (Mat.mk 2 2 [1, 2, 3, 4] : Mat Int).prodAssignTemp := by
  refine ⟨?_, by decide⟩
  unfold Mat.mul
  rw [if_pos hsq.symm]
  unfold Mat.prodAssignTemp Mat.writeEntries Mat.ofFn
  congr 1
  rw [foldl_set_range (fun k => Mat.mulEntry m m (k / m.cols) (k % m.cols))
    (m.rows * m.cols) m.data (by rw [hwf])]
  have hdrop : m.data.drop (m.rows * m.cols) = [] := by
    rw [← hwf, List.drop_length]
  rw [hdrop, List.append_nil]

/-- C5 witness: the property at the source matrix [[1,2],[3,4]] of
`multiplication_division`. -/
theorem aliased_product_assignment_witness :
    Mat.mul (Mat.mk 2 2 [1, 2, 3, 4] : Mat Int) (Mat.mk 2 2 [1, 2, 3, 4])
        = Except.ok (Mat.mk 2 2 [1, 2, 3, 4] : Mat Int).prodAssignTemp
    ∧ (Mat.mk 2 2 [1, 2, 3, 4] : Mat Int).prodAssignInPlace
        ≠ (Mat.mk 2 2 [1, 2, 3, 4] : Mat Int).prodAssignTemp :=
  aliased_product_assignment (Mat.mk 2 2 [1, 2, 3, 4]) rfl (by decide)
